import Mathlib

/-!
Verification of the cdk-chalice packaging pipeline (`cdk_chalice/chalice.py`)
against its natural-language specification.

The development shallowly embeds the pipeline:
  * JSON documents (as produced by Python's `json.load`) are an inductive
    `Json` type whose objects are ordered association lists with unique keys,
    matching Python `dict` insertion-order semantics.
  * `Chalice._create_stage_with_config` becomes `createStageWithConfig`.
  * `DockerConfig.__init__` becomes `resolveImage`, `dockerConfigEnv` and
    `dockerConfigInitCommands`, combined in `mkDockerConfig`.
  * The runner selection of `Chalice._package_app` becomes `selectRunner`.
  * `Chalice._package_app_subprocess` becomes `packageAppSubprocess`
    (environment construction: `subprocessEnv`).
  * `Chalice._package_app_container` becomes `dockerCommand` (shell command
    construction) and `packageAppContainer` (error policy around the
    container runtime).
  * `Chalice._update_sam_template` becomes `updateSamTemplate`, instrumented
    with an event trace recording the asset upload and the manifest read, and
    returning the (unchanged) directory state to witness the absence of disk
    writes.
All definitions are executable.
-/

/-- JSON values as parsed by Python's `json.load`. Objects are ordered
association lists with unique keys, matching `dict` semantics. -/
inductive Json where
  | null
  | bool (b : Bool)
  | num (n : Int)
  | str (s : String)
  | arr (elems : List Json)
  | obj (kvs : List (String × Json))

/-- Python `dict` lookup `d[k]` on a parsed JSON object; `none` models a
`KeyError`. -/
def getKey : List (String × Json) → String → Option Json
  | [], _ => none
  | (k', v) :: rest, k => if k' = k then some v else getKey rest k

/-- Python `dict` assignment `d[k] = v`: replaces the value in place if the
key is present (keeping its position), otherwise appends the new entry at the
end, matching insertion-order semantics. -/
def setKey : List (String × Json) → String → Json → List (String × Json)
  | [], k, v => [(k, v)]
  | (k', v') :: rest, k, v =>
      if k' = k then (k, v) :: rest else (k', v') :: setKey rest k v

/-- Embedding of `Chalice._create_stage_with_config`: parse the config store,
execute `config["stages"][stage_name] = stage_config`, serialize the result
back over the same file. Input and output are the parsed contents of
`.chalice/config.json`; `none` models the `KeyError`/`TypeError` raised when
the document is not an object containing a `stages` object. -/
def createStageWithConfig (config : Json) (stageName : String)
    (stageConfig : Json) : Option Json :=
  match config with
  | .obj kvs =>
    match getKey kvs "stages" with
    | some (.obj stages) =>
        some (.obj (setKey kvs "stages" (.obj (setKey stages stageName stageConfig))))
    | _ => none
  | _ => none

/-- Environment-variable mappings (`os.environ`, `DockerConfig.env`, the
subprocess `env` dict) as ordered association lists with unique keys. -/
def lookupEnv : List (String × String) → String → Option String
  | [], _ => none
  | (k', v) :: rest, k => if k' = k then some v else lookupEnv rest k

/-- Python `dict.setdefault(k, v)`: leaves the mapping unchanged when `k` is
present, otherwise appends `(k, v)` at the end. -/
def setdefaultEnv (env : List (String × String)) (k v : String) :
    List (String × String) :=
  match lookupEnv env k with
  | some _ => env
  | none => env ++ [(k, v)]

/-- Embedding of the build configuration held by `DockerConfig`. -/
structure DockerConfig where
  image : String
  env : List (String × String)
  initCommands : List String

/-- Version-derived default image built by `DockerConfig.__init__` from
`sys.version_info.major` and `sys.version_info.minor`. -/
def pythonDefaultDockerImage (major minor : Nat) : String :=
  "lambci/lambda:build-python" ++ toString major ++ "." ++ toString minor

/-- Embedding of the image resolution in `DockerConfig.__init__`: `if not
image:` selects the version-derived default (`none` models Python `None`,
and the empty string is also falsy); otherwise the given image is kept. -/
def resolveImage (major minor : Nat) (image : Option String) : String :=
  match image with
  | none => pythonDefaultDockerImage major minor
  | some s => if s = "" then pythonDefaultDockerImage major minor else s

/-- Embedding of the environment resolution in `DockerConfig.__init__`:
`self.env = env or ...` (empty dict when `env` is `None` or empty) followed
by `self.env.setdefault('AWS_DEFAULT_REGION', 'us-east-1')`. -/
def dockerConfigEnv (env : Option (List (String × String))) :
    List (String × String) :=
  setdefaultEnv (match env with | none => [] | some e => e)
    "AWS_DEFAULT_REGION" "us-east-1"

/-- Embedding of the init-command resolution in `DockerConfig.__init__`:
`if not init_commands: init_commands = []` (identity on the list contents). -/
def dockerConfigInitCommands (initCommands : Option (List String)) : List String :=
  match initCommands with
  | none => []
  | some cs => cs

/-- Embedding of `DockerConfig.__init__` as a whole. -/
def mkDockerConfig (major minor : Nat) (image : Option String)
    (env : Option (List (String × String)))
    (initCommands : Option (List String)) : DockerConfig :=
  { image := resolveImage major minor image
    env := dockerConfigEnv env
    initCommands := dockerConfigInitCommands initCommands }

/-- Embedding of the environment construction in
`Chalice._package_app_subprocess`: copy `os.environ` into a fresh dict,
then `env.setdefault('AWS_DEFAULT_REGION', 'us-east-1')`. -/
def subprocessEnv (osEnviron : List (String × String)) :
    List (String × String) :=
  setdefaultEnv osEnviron "AWS_DEFAULT_REGION" "us-east-1"

/-- The two execution-strategy variants of `Chalice._package_app`. -/
inductive Runner where
  | containerized
  | localProcess

/-- Embedding of the runner selection in `Chalice._package_app`:
`if self.docker_config is not None:` run in a container, `else` run the
local subprocess. -/
def selectRunner (dockerConfig : Option DockerConfig) : Runner :=
  match dockerConfig with
  | some _ => .containerized
  | none => .localProcess

/-- Embedding of the generator join
`"".join(command + "; " for command in init_commands)` in
`Chalice._package_app_container`: the init commands concatenated in order,
each followed by a semicolon separator. -/
def joinSemis : List String → String
  | [] => ""
  | c :: rest => c ++ "; " ++ joinSemis rest

/-- Embedding of the shell command string built by
`Chalice._package_app_container`. -/
def dockerCommand (cfg : DockerConfig) (stageName : String) : String :=
  "bash -c \"" ++ joinSemis cfg.initCommands
    ++ "pip install --no-cache-dir -r requirements.txt; "
    ++ "chalice package --stage " ++ stageName ++ " /chalice.out\""

/-- Ordered containment: the strings of the list occur inside `s`,
pairwise disjoint and in the given order. -/
def containsInOrder (s : String) : List String → Prop
  | [] => True
  | c :: rest => ∃ s₁ s₂, s = s₁ ++ c ++ s₂ ∧ containsInOrder s₂ rest

/-- Outcome of `docker.client.containers.run` (external collaborator) for a
single invocation: success, `docker.errors.NotFound` for an unresolvable
image, `docker.errors.ContainerError` when the command exits with a non-zero
status (the call here uses `detach=False`), or any other runtime error. -/
inductive DockerRunOutcome where
  | success
  | imageNotFound
  | containerError (exitStatus : Int)
  | apiError (explanation : String)

/-- Errors that `Chalice._package_app_container` can raise to its caller. -/
inductive PackagingError where
  | chaliceError (message : String)
  | dockerContainerError (exitStatus : Int)
  | dockerApiError (explanation : String)

/-- Message of the `ChaliceError` raised by `Chalice._package_app_container`
when the container runtime reports the image as not found. -/
def imageNotFoundMessage (image : String) : String :=
  "Unsupported Python version in docker image: " ++ image ++ ". See AWS Lambda "
    ++ "Runtimes documentation for supported versions: "
    ++ "https://docs.aws.amazon.com/lambda/latest/dg/lambda-runtimes.html"

/-- Embedding of the error policy of `Chalice._package_app_container`: only
`docker.errors.NotFound` is caught and re-raised as a `ChaliceError` naming
the image; every other container-runtime error propagates unmodified. -/
def packageAppContainer (cfg : DockerConfig) (outcome : DockerRunOutcome) :
    Except PackagingError Unit :=
  match outcome with
  | .success => .ok ()
  | .imageNotFound => .error (.chaliceError (imageNotFoundMessage cfg.image))
  | .containerError c => .error (.dockerContainerError c)
  | .apiError e => .error (.dockerApiError e)

/-- Arguments of the `subprocess.run` call in
`Chalice._package_app_subprocess`. -/
structure SubprocessCall where
  command : List String
  cwd : String
  env : List (String × String)

/-- Result object of `subprocess.run` (a `CompletedProcess`): called without
`check=True`, it returns whatever the exit status and never raises on a
non-zero exit. -/
structure CompletedProcess where
  returncode : Int

/-- Embedding of `subprocess.run(command, cwd=self.source_dir, env=env)`. -/
def subprocessRun (call : SubprocessCall) (buildExit : Int) : CompletedProcess :=
  ⟨buildExit⟩

/-- Embedding of `Chalice._package_app_subprocess`: builds the command list
and environment, runs the build subprocess, discards the `CompletedProcess`
and returns. `buildExit` is the exit status of the `chalice package` child
process. -/
def packageAppSubprocess (chaliceExe sourceDir stageName samPackageDir : String)
    (osEnviron : List (String × String)) (buildExit : Int) :
    SubprocessCall × Except PackagingError Unit :=
  let call : SubprocessCall :=
    ⟨[chaliceExe, "package", "--stage", stageName, samPackageDir],
      sourceDir, subprocessEnv osEnviron⟩
  let _completed := subprocessRun call buildExit
  (call, .ok ())

/-- Identifiers of the uploaded deployment-archive asset: `aws_s3_assets.Asset`
exposes `s3_bucket_name` and `s3_object_key` (the PublishedAsset of the
spec). -/
structure Asset where
  s3BucketName : String
  s3ObjectKey : String

/-- Content of a file as seen by `open` + `json.load`: either a parsed JSON
document or text on which parsing fails. -/
inductive FileContent where
  | json (doc : Json)
  | malformed

/-- Contents of the SAM packaging output directory relevant to
`Chalice._update_sam_template`: whether `deployment.zip` exists, and the
state of `sam.json` (absent, malformed, or parsed). -/
structure SamPackageDir where
  zipPresent : Bool
  samFile : Option FileContent

/-- Observable side effects of `Chalice._update_sam_template`, in order of
occurrence: the asset creation (which uploads `deployment.zip`) and the
opening/reading of `sam.json`. -/
inductive Event where
  | assetUpload
  | manifestRead
deriving DecidableEq

/-- Errors `Chalice._update_sam_template` can raise. -/
inductive RewriteError where
  | archiveNotFound
  | manifestNotFound
  | manifestMalformed
  | badTemplate
  | badResource
deriving DecidableEq

/-- The two-field reference written into `Properties['CodeUri']`. -/
def codeUriRef (asset : Asset) : Json :=
  .obj [("Bucket", .str asset.s3BucketName), ("Key", .str asset.s3ObjectKey)]

/-- Python test `v['Type'] == 'AWS::Serverless::Function'` for a resource
value on which the `'Type'` access succeeds (non-dict values and non-string
types compare unequal). -/
def isFunctionResource (v : Json) : Bool :=
  match v with
  | .obj rkvs =>
    match getKey rkvs "Type" with
    | some (.str t) => t = "AWS::Serverless::Function"
    | _ => false
  | _ => false

/-- The list comprehension in `Chalice._update_sam_template` evaluates
`v['Type']` on every resource value: the access succeeds only on an object
with a `'Type'` entry. -/
def typeAccessOk (v : Json) : Bool :=
  match v with
  | .obj rkvs => (getKey rkvs "Type").isSome
  | _ => false

/-- All `'Type'` accesses of the list comprehension succeed. -/
def allTypesOk (resources : List (String × Json)) : Bool :=
  resources.all (fun p => typeAccessOk p.2)

/-- Loop body of `Chalice._update_sam_template`:
`properties = function['Properties']` followed by
`properties['CodeUri'] = ...`. In Python this mutates the resource dict
shared with the template; here the updated resource value is returned.
An error models the `KeyError`/`TypeError` when `'Properties'` is absent or
not a dict. -/
def setCodeUri (asset : Asset) (v : Json) : Except RewriteError Json :=
  match v with
  | .obj rkvs =>
    match getKey rkvs "Properties" with
    | some (.obj props) =>
        .ok (.obj (setKey rkvs "Properties"
          (.obj (setKey props "CodeUri" (codeUriRef asset)))))
    | some _ => .error .badResource
    | none => .error .badResource
  | _ => .error .badResource

/-- The rewrite loop over `sam_template['Resources'].items()`: function-typed
resources get their `CodeUri` replaced, all other entries pass through
untouched. -/
def rewriteResources (asset : Asset) :
    List (String × Json) → Except RewriteError (List (String × Json))
  | [] => .ok []
  | (k, v) :: rest =>
    if isFunctionResource v then
      match setCodeUri asset v with
      | .error e => .error e
      | .ok v' =>
        match rewriteResources asset rest with
        | .error e => .error e
        | .ok rest' => .ok ((k, v') :: rest')
    else
      match rewriteResources asset rest with
      | .error e => .error e
      | .ok rest' => .ok ((k, v) :: rest')

/-- In-memory part of `Chalice._update_sam_template`: access
`sam_template['Resources']`, filter the function resources (evaluating every
`'Type'`), patch each one's `CodeUri`, and return the mutated template. -/
def rewriteTemplate (asset : Asset) (tmpl : Json) : Except RewriteError Json :=
  match tmpl with
  | .obj kvs =>
    match getKey kvs "Resources" with
    | some (.obj resources) =>
      if allTypesOk resources then
        match rewriteResources asset resources with
        | .error e => .error e
        | .ok resources' => .ok (.obj (setKey kvs "Resources" (.obj resources')))
      else .error .badResource
    | some _ => .error .badTemplate
    | none => .error .badTemplate
  | _ => .error .badTemplate

/-- Embedding of `Chalice._update_sam_template`. Returns the event trace (in
order of occurrence), the directory contents after the call (the method opens
`sam.json` read-only and never writes to the directory), and the returned
template or the raised error. The asset construction — which uploads
`deployment.zip` and fails if the archive is missing — happens before
`sam.json` is opened or parsed. -/
def updateSamTemplate (asset : Asset) (dir : SamPackageDir) :
    List Event × SamPackageDir × Except RewriteError Json :=
  if dir.zipPresent then
    match dir.samFile with
    | none => ([.assetUpload], dir, .error .manifestNotFound)
    | some .malformed =>
        ([.assetUpload, .manifestRead], dir, .error .manifestMalformed)
    | some (.json tmpl) =>
        ([.assetUpload, .manifestRead], dir, rewriteTemplate asset tmpl)
  else ([], dir, .error .archiveNotFound)

/-- Number of archive uploads in a trace. -/
def countUploads (events : List Event) : Nat :=
  events.count .assetUpload

/-- Well-formedness of a resource value, under which the rewrite completes
without raising: an object with a `'Type'` entry whose `'Properties'` entry
exists and is an object whenever the resource is function-typed. -/
def resourceOk (v : Json) : Prop :=
  ∃ rkvs, v = .obj rkvs ∧ (getKey rkvs "Type").isSome = true
    ∧ (isFunctionResource v = true →
        ∃ props, getKey rkvs "Properties" = some (.obj props))

/-- Exact relation between an input resource entry and its rewritten output
entry. -/
def rewrittenEntry (asset : Asset) (p q : String × Json) : Prop :=
  q.1 = p.1
  ∧ (isFunctionResource p.2 = false → q.2 = p.2)
  ∧ (isFunctionResource p.2 = true →
      ∃ rkvs props, p.2 = .obj rkvs
        ∧ getKey rkvs "Properties" = some (.obj props)
        ∧ q.2 = .obj (setKey rkvs "Properties"
            (.obj (setKey props "CodeUri" (codeUriRef asset)))))

theorem getKey_setKey_same (kvs : List (String × Json)) (k : String) (v : Json) :
    getKey (setKey kvs k v) k = some v := by
  induction kvs with
  | nil => simp [setKey, getKey]
  | cons p rest ih =>
    obtain ⟨k', v'⟩ := p
    by_cases h : k' = k
    · simp [setKey, getKey, h]
    · simp [setKey, getKey, h, ih]

theorem getKey_setKey_ne (kvs : List (String × Json)) (k k₂ : String) (v : Json)
    (h : k₂ ≠ k) : getKey (setKey kvs k v) k₂ = getKey kvs k₂ := by
  have h' : ¬ k = k₂ := fun hh => h hh.symm
  induction kvs with
  | nil => simp [setKey, getKey, h']
  | cons p rest ih =>
    obtain ⟨k', v'⟩ := p
    by_cases hk : k' = k
    · subst hk
      simp [setKey, getKey, h']
    · simp [setKey, getKey, hk, ih]

theorem lookupEnv_append_single (env : List (String × String)) (k v : String)
    (h : lookupEnv env k = none) : lookupEnv (env ++ [(k, v)]) k = some v := by
  induction env with
  | nil => simp [lookupEnv]
  | cons p rest ih =>
    obtain ⟨k', v'⟩ := p
    by_cases hk : k' = k
    · simp [lookupEnv, hk] at h
    · simp only [List.cons_append, lookupEnv, if_neg hk] at h ⊢
      exact ih h

/-- C1: for every config store that parses as JSON with a top-level `stages`
mapping, merging stage `S` with config `C` succeeds, leaves every top-level
key other than `stages` unchanged, leaves every stage entry other than `S`
unchanged, and afterwards `stages[S] == C`. -/
theorem c1_create_stage_with_config (kvs stages : List (String × Json))
    (S : String) (C : Json)
    (h : getKey kvs "stages" = some (.obj stages)) :
    ∃ kvs', createStageWithConfig (.obj kvs) S C = some (.obj kvs')
      ∧ (∀ k, k ≠ "stages" → getKey kvs' k = getKey kvs k)
      ∧ ∃ stages', getKey kvs' "stages" = some (.obj stages')
          ∧ (∀ t, t ≠ S → getKey stages' t = getKey stages t)
          ∧ getKey stages' S = some C := by
  refine ⟨setKey kvs "stages" (.obj (setKey stages S C)), ?_, ?_, ?_⟩
  · simp [createStageWithConfig, h]
  · intro k hk
    exact getKey_setKey_ne kvs "stages" k _ hk
  · exact ⟨setKey stages S C, getKey_setKey_same kvs "stages" _,
      fun t ht => getKey_setKey_ne stages S t C ht,
      getKey_setKey_same stages S C⟩

/-- Witness for C1 at the concrete config store
`{"version": "2.0", "stages": {"dev": {"api_gateway_stage": "api"}}}`,
merged with stage `prod` and config `{"api_gateway_stage": "v1"}`. -/
theorem c1_create_stage_with_config_witness :
    ∃ kvs', createStageWithConfig
        (.obj [("version", .str "2.0"),
               ("stages", .obj [("dev", .obj [("api_gateway_stage", .str "api")])])])
        "prod" (.obj [("api_gateway_stage", .str "v1")]) = some (.obj kvs')
      ∧ (∀ k, k ≠ "stages" →
          getKey kvs' k = getKey [("version", Json.str "2.0"),
               ("stages", Json.obj [("dev", Json.obj [("api_gateway_stage", Json.str "api")])])] k)
      ∧ ∃ stages', getKey kvs' "stages" = some (.obj stages')
          ∧ (∀ t, t ≠ "prod" →
              getKey stages' t = getKey [("dev", Json.obj [("api_gateway_stage", Json.str "api")])] t)
          ∧ getKey stages' "prod" = some (.obj [("api_gateway_stage", .str "v1")]) :=
  c1_create_stage_with_config
    [("version", .str "2.0"),
     ("stages", .obj [("dev", .obj [("api_gateway_stage", .str "api")])])]
    [("dev", .obj [("api_gateway_stage", .str "api")])]
    "prod" (.obj [("api_gateway_stage", .str "v1")]) rfl

/-- C5: in both the subprocess environment and the DockerConfig environment,
a caller-set `AWS_DEFAULT_REGION` is left unmodified (indeed the whole
environment is untouched), and an absent one becomes `us-east-1`. -/
theorem c5_region_default (e : List (String × String)) :
    lookupEnv (subprocessEnv e) "AWS_DEFAULT_REGION"
      = some ((lookupEnv e "AWS_DEFAULT_REGION").getD "us-east-1")
  ∧ lookupEnv (dockerConfigEnv (some e)) "AWS_DEFAULT_REGION"
      = some ((lookupEnv e "AWS_DEFAULT_REGION").getD "us-east-1")
  ∧ lookupEnv (dockerConfigEnv none) "AWS_DEFAULT_REGION" = some "us-east-1"
  ∧ (∀ v, lookupEnv e "AWS_DEFAULT_REGION" = some v →
      subprocessEnv e = e ∧ dockerConfigEnv (some e) = e) := by
  refine ⟨?_, ?_, ?_, ?_⟩
  · cases h : lookupEnv e "AWS_DEFAULT_REGION" with
    | none => simpa [subprocessEnv, setdefaultEnv, h] using
        lookupEnv_append_single e "AWS_DEFAULT_REGION" "us-east-1" h
    | some v => simp [subprocessEnv, setdefaultEnv, h]
  · cases h : lookupEnv e "AWS_DEFAULT_REGION" with
    | none => simpa [dockerConfigEnv, setdefaultEnv, h] using
        lookupEnv_append_single e "AWS_DEFAULT_REGION" "us-east-1" h
    | some v => simp [dockerConfigEnv, setdefaultEnv, h]
  · simp [dockerConfigEnv, setdefaultEnv, lookupEnv]
  · intro v hv
    exact ⟨by simp [subprocessEnv, setdefaultEnv, hv],
           by simp [dockerConfigEnv, setdefaultEnv, hv]⟩

/-- Witness for C5 at concrete environments: one where the caller set the
region to `eu-west-1` (kept untouched), one without a region (defaulted). -/
theorem c5_region_default_witness :
    subprocessEnv [("AWS_DEFAULT_REGION", "eu-west-1")]
      = [("AWS_DEFAULT_REGION", "eu-west-1")]
  ∧ lookupEnv (subprocessEnv [("PATH", "/usr/bin")]) "AWS_DEFAULT_REGION"
      = some "us-east-1" :=
  ⟨((c5_region_default [("AWS_DEFAULT_REGION", "eu-west-1")]).2.2.2
      "eu-west-1" rfl).1,
   by simpa using (c5_region_default [("PATH", "/usr/bin")]).1⟩

/-- C9: a `DockerConfig` built with an absent (`None`) or empty image gets
the version-derived default `lambci/lambda:build-python<major>.<minor>`;
a non-empty image is used unchanged. -/
theorem c9_resolve_image (major minor : Nat) :
    resolveImage major minor none
      = "lambci/lambda:build-python" ++ toString major ++ "." ++ toString minor
  ∧ resolveImage major minor (some "")
      = "lambci/lambda:build-python" ++ toString major ++ "." ++ toString minor
  ∧ (∀ s, s ≠ "" → resolveImage major minor (some s) = s) := by
  refine ⟨rfl, rfl, ?_⟩
  intro s hs
  simp [resolveImage, hs]

/-- Witness for C9 at Python 3.8 with the non-empty image `amazonlinux`. -/
theorem c9_resolve_image_witness :
    resolveImage 3 8 none = "lambci/lambda:build-python3.8"
  ∧ resolveImage 3 8 (some "amazonlinux") = "amazonlinux" :=
  ⟨(c9_resolve_image 3 8).1.trans rfl,
   (c9_resolve_image 3 8).2.2 "amazonlinux" (by decide)⟩

/-- C4: the containerized runner is chosen exactly when a `docker_config` is
supplied and the local process runner exactly when it is omitted; the two
cases are exhaustive and mutually exclusive. -/
theorem c4_select_runner (dc : Option DockerConfig) :
    (selectRunner dc = .containerized ↔ ∃ cfg, dc = some cfg)
  ∧ (selectRunner dc = .localProcess ↔ dc = none)
  ∧ (selectRunner dc = .containerized ↔ ¬ selectRunner dc = .localProcess) := by
  cases dc <;> simp [selectRunner]

/-- Witness for C4 at a concrete supplied config and at an omitted one. -/
theorem c4_select_runner_witness :
    selectRunner (some (mkDockerConfig 3 8 none none none)) = .containerized
  ∧ selectRunner none = .localProcess :=
  ⟨(c4_select_runner (some (mkDockerConfig 3 8 none none none))).1.mpr
      ⟨mkDockerConfig 3 8 none none none, rfl⟩,
   (c4_select_runner none).2.1.mpr rfl⟩

theorem containsInOrder_cons_self (c t : String) (cs : List String)
    (h : containsInOrder t cs) : containsInOrder (c ++ t) (c :: cs) := by
  refine ⟨"", t, ?_, h⟩
  rw [String.empty_append]

theorem containsInOrder_append_left (s t : String) (cs : List String)
    (h : containsInOrder t cs) : containsInOrder (s ++ t) cs := by
  cases cs with
  | nil => trivial
  | cons c rest =>
    obtain ⟨s₁, s₂, he, hrest⟩ := h
    refine ⟨s ++ s₁, s₂, ?_, hrest⟩
    rw [he]
    simp [String.append_assoc]

theorem joinSemis_containsInOrder (inits : List String) (t : String)
    (cs : List String) (h : containsInOrder t cs) :
    containsInOrder (joinSemis inits ++ t) (inits ++ cs) := by
  induction inits with
  | nil => simpa [joinSemis, String.empty_append] using h
  | cons c rest ih =>
    have hshape : joinSemis (c :: rest) ++ t
        = c ++ ("; " ++ (joinSemis rest ++ t)) := by
      simp [joinSemis, String.append_assoc]
    rw [hshape]
    exact containsInOrder_cons_self c _ _
      (containsInOrder_append_left "; " _ _ ih)

/-- C8: for every `DockerConfig` and stage name, the shell command built by
the containerized runner contains, in order: each configured init command in
sequence order, then the dependency-install command, then
`chalice package --stage <stage_name> /chalice.out` targeting the fixed
internal output path. -/
theorem c8_docker_command (cfg : DockerConfig) (stageName : String) :
    containsInOrder (dockerCommand cfg stageName)
      (cfg.initCommands ++
        ["pip install --no-cache-dir -r requirements.txt",
         "chalice package --stage " ++ stageName ++ " /chalice.out"]) := by
  have htail : containsInOrder
      ("pip install --no-cache-dir -r requirements.txt; "
        ++ ("chalice package --stage " ++ (stageName ++ " /chalice.out\"")))
      ["pip install --no-cache-dir -r requirements.txt",
       "chalice package --stage " ++ stageName ++ " /chalice.out"] := by
    refine ⟨"", "; " ++ ("chalice package --stage "
        ++ (stageName ++ " /chalice.out\"")), rfl, "; ", "\"", ?_, trivial⟩
    simp only [String.append_assoc]
    rfl
  have hshape : dockerCommand cfg stageName
      = "bash -c \"" ++ (joinSemis cfg.initCommands
          ++ ("pip install --no-cache-dir -r requirements.txt; "
            ++ ("chalice package --stage " ++ (stageName ++ " /chalice.out\"")))) := by
    simp only [dockerCommand, String.append_assoc]
  rw [hshape]
  exact containsInOrder_append_left "bash -c \"" _ _
    (joinSemis_containsInOrder cfg.initCommands _ _ htail)

/-- C7: when the container runtime reports the image as not found, the
containerized runner raises the distinguished `ChaliceError` whose message
contains the image identifier; every other container-runtime error
propagates to the caller unmodified. -/
theorem c7_image_not_found (cfg : DockerConfig) :
    (∃ s₁ s₂, packageAppContainer cfg .imageNotFound
        = .error (.chaliceError (s₁ ++ cfg.image ++ s₂)))
  ∧ (∀ c, packageAppContainer cfg (.containerError c)
        = .error (.dockerContainerError c))
  ∧ (∀ e, packageAppContainer cfg (.apiError e)
        = .error (.dockerApiError e)) := by
  refine ⟨⟨"Unsupported Python version in docker image: ",
      ". See AWS Lambda Runtimes documentation for supported versions: https://docs.aws.amazon.com/lambda/latest/dg/lambda-runtimes.html",
      ?_⟩, fun c => rfl, fun e => rfl⟩
  simp [packageAppContainer, imageNotFoundMessage, String.append_assoc]

/-- Counterexample to C6 as stated: with `subprocess.run` called without
`check=True`, a `chalice package` child process that exits with status 1 (a
failed build) makes `_package_app_subprocess` return normally — no error is
propagated to the caller by the run operation itself. -/
theorem c6_counterexample :
    (1 : Int) ≠ 0
  ∧ (packageAppSubprocess "/usr/bin/chalice" "/app" "dev"
      "/work/chalice.out/abc" [] 1).2 = Except.ok () :=
  ⟨by decide, rfl⟩

/-- C6 (amended): in the containerized variant a failing build propagates —
the container runtime's error (`ContainerError` for a non-zero exit, and any
other non-image-not-found error) is re-raised to the caller; in the
local-process variant the run returns normally regardless of the build's
exit status, and the failure only surfaces downstream when the manifest is
missing from the output directory. -/
theorem c6_build_failure_propagation (cfg : DockerConfig) (exitStatus : Int)
    (exe src stage outDir : String) (osEnv : List (String × String))
    (buildExit : Int) (asset : Asset) :
    packageAppContainer cfg (.containerError exitStatus)
        = .error (.dockerContainerError exitStatus)
  ∧ (∀ expl, packageAppContainer cfg (.apiError expl)
        = .error (.dockerApiError expl))
  ∧ (packageAppSubprocess exe src stage outDir osEnv buildExit).2 = .ok ()
  ∧ (updateSamTemplate asset ⟨true, none⟩).2.2 = .error .manifestNotFound :=
  ⟨rfl, fun _ => rfl, rfl, rfl⟩

theorem allTypesOk_of_resourceOk (resources : List (String × Json))
    (hok : ∀ p ∈ resources, resourceOk p.2) : allTypesOk resources = true := by
  simp only [allTypesOk, List.all_eq_true]
  intro p hp
  obtain ⟨rkvs, hveq, htype, _⟩ := hok p hp
  rw [hveq]
  simpa [typeAccessOk] using htype

theorem rewriteResources_ok (asset : Asset) (resources : List (String × Json))
    (hok : ∀ p ∈ resources, resourceOk p.2) :
    ∃ resources', rewriteResources asset resources = .ok resources'
      ∧ List.Forall₂ (rewrittenEntry asset) resources resources' := by
  induction resources with
  | nil => exact ⟨[], rfl, List.Forall₂.nil⟩
  | cons p rest ih =>
    obtain ⟨k, v⟩ := p
    obtain ⟨rest', hrest, hrel⟩ :=
      ih (fun q hq => hok q (List.mem_cons_of_mem _ hq))
    have hv := hok (k, v) (List.mem_cons_self _ _)
    by_cases hf : isFunctionResource v = true
    · obtain ⟨rkvs, hveq, _, hprops⟩ := hv
      have hveq' : v = Json.obj rkvs := hveq
      obtain ⟨props, hp⟩ := hprops hf
      have hset : setCodeUri asset v = .ok (.obj (setKey rkvs "Properties"
          (.obj (setKey props "CodeUri" (codeUriRef asset))))) := by
        rw [hveq']
        simp [setCodeUri, hp]
      refine ⟨(k, .obj (setKey rkvs "Properties"
          (.obj (setKey props "CodeUri" (codeUriRef asset))))) :: rest', ?_, ?_⟩
      · simp [rewriteResources, hf, hset, hrest]
      · refine List.Forall₂.cons ⟨rfl, ?_, ?_⟩ hrel
        · intro hff
          rw [hf] at hff
          exact absurd hff (by decide)
        · intro _
          exact ⟨rkvs, props, hveq, hp, rfl⟩
    · have hf' : isFunctionResource v = false := by
        simpa using hf
      refine ⟨(k, v) :: rest', ?_, ?_⟩
      · simp [rewriteResources, hf', hrest]
      · refine List.Forall₂.cons ⟨rfl, fun _ => rfl, ?_⟩ hrel
        intro hff
        rw [hf'] at hff
        exact absurd hff (by decide)

/-- C2: for every manifest whose `Resources` mapping has well-formed
resources, the rewrite uploads the deployment archive exactly once per
invocation, and every function-typed resource has its `Properties.CodeUri`
replaced by the same two-field `{Bucket, Key}` reference taken from that
single uploaded asset. -/
theorem c2_upload_once_rewrite (asset : Asset) (dir : SamPackageDir)
    (kvs resources : List (String × Json))
    (hzip : dir.zipPresent = true)
    (hsam : dir.samFile = some (.json (.obj kvs)))
    (hres : getKey kvs "Resources" = some (.obj resources))
    (hok : ∀ p ∈ resources, resourceOk p.2) :
    countUploads (updateSamTemplate asset dir).1 = 1
  ∧ ∃ kvs' resources',
      (updateSamTemplate asset dir).2.2 = .ok (.obj kvs')
      ∧ getKey kvs' "Resources" = some (.obj resources')
      ∧ List.Forall₂ (fun p q => q.1 = p.1 ∧
          (isFunctionResource p.2 = true →
            ∃ rkvs' props', q.2 = Json.obj rkvs'
              ∧ getKey rkvs' "Properties" = some (.obj props')
              ∧ getKey props' "CodeUri" = some (codeUriRef asset)))
          resources resources' := by
  obtain ⟨resources', hrw, hrel⟩ := rewriteResources_ok asset resources hok
  have hall := allTypesOk_of_resourceOk resources hok
  have hupd : updateSamTemplate asset dir
      = ([.assetUpload, .manifestRead], dir,
         .ok (.obj (setKey kvs "Resources" (.obj resources')))) := by
    simp [updateSamTemplate, hzip, hsam, rewriteTemplate, hres, hall, hrw]
  refine ⟨by rw [hupd]; rfl, setKey kvs "Resources" (.obj resources'), resources',
      by rw [hupd], getKey_setKey_same kvs "Resources" _, ?_⟩
  refine hrel.imp ?_
  intro p q hpq
  obtain ⟨h1, _, h3⟩ := hpq
  refine ⟨h1, fun hf => ?_⟩
  obtain ⟨rkvs, props, hveq, hp, hq⟩ := h3 hf
  exact ⟨setKey rkvs "Properties" (.obj (setKey props "CodeUri" (codeUriRef asset))),
      setKey props "CodeUri" (codeUriRef asset), hq,
      getKey_setKey_same rkvs "Properties" _, getKey_setKey_same props "CodeUri" _⟩

/-- Witness for C2 at a concrete manifest with one function resource and one
non-function resource. -/
theorem c2_upload_once_rewrite_witness :
    countUploads (updateSamTemplate ⟨"cdk-bucket", "abc123.zip"⟩
      ⟨true, some (.json (.obj [("Resources", .obj
        [("APIHandler", .obj [("Type", .str "AWS::Serverless::Function"),
            ("Properties", .obj [("CodeUri", .str "./deployment.zip"),
              ("Handler", .str "app.app")])]),
         ("RestAPI", .obj [("Type", .str "AWS::Serverless::Api"),
            ("Properties", .obj [("StageName", .str "dev")])])]),
        ("Outputs", .null)]))⟩).1 = 1
  ∧ ∃ kvs' resources',
      (updateSamTemplate ⟨"cdk-bucket", "abc123.zip"⟩
        ⟨true, some (.json (.obj [("Resources", .obj
          [("APIHandler", .obj [("Type", .str "AWS::Serverless::Function"),
              ("Properties", .obj [("CodeUri", .str "./deployment.zip"),
                ("Handler", .str "app.app")])]),
           ("RestAPI", .obj [("Type", .str "AWS::Serverless::Api"),
              ("Properties", .obj [("StageName", .str "dev")])])]),
          ("Outputs", .null)]))⟩).2.2 = .ok (.obj kvs')
      ∧ getKey kvs' "Resources" = some (.obj resources')
      ∧ List.Forall₂ (fun p q => q.1 = p.1 ∧
          (isFunctionResource p.2 = true →
            ∃ rkvs' props', q.2 = Json.obj rkvs'
              ∧ getKey rkvs' "Properties" = some (.obj props')
              ∧ getKey props' "CodeUri"
                  = some (codeUriRef ⟨"cdk-bucket", "abc123.zip"⟩)))
          [("APIHandler", Json.obj [("Type", Json.str "AWS::Serverless::Function"),
              ("Properties", Json.obj [("CodeUri", Json.str "./deployment.zip"),
                ("Handler", Json.str "app.app")])]),
           ("RestAPI", Json.obj [("Type", Json.str "AWS::Serverless::Api"),
              ("Properties", Json.obj [("StageName", Json.str "dev")])])]
          resources' :=
  c2_upload_once_rewrite ⟨"cdk-bucket", "abc123.zip"⟩
    ⟨true, some (.json (.obj [("Resources", .obj
      [("APIHandler", .obj [("Type", .str "AWS::Serverless::Function"),
          ("Properties", .obj [("CodeUri", .str "./deployment.zip"),
            ("Handler", .str "app.app")])]),
       ("RestAPI", .obj [("Type", .str "AWS::Serverless::Api"),
          ("Properties", .obj [("StageName", .str "dev")])])]),
      ("Outputs", .null)]))⟩
    [("Resources", .obj
      [("APIHandler", .obj [("Type", .str "AWS::Serverless::Function"),
          ("Properties", .obj [("CodeUri", .str "./deployment.zip"),
            ("Handler", .str "app.app")])]),
       ("RestAPI", .obj [("Type", .str "AWS::Serverless::Api"),
          ("Properties", .obj [("StageName", .str "dev")])])]),
      ("Outputs", .null)]
    [("APIHandler", .obj [("Type", .str "AWS::Serverless::Function"),
        ("Properties", .obj [("CodeUri", .str "./deployment.zip"),
          ("Handler", .str "app.app")])]),
     ("RestAPI", .obj [("Type", .str "AWS::Serverless::Api"),
        ("Properties", .obj [("StageName", .str "dev")])])]
    rfl rfl rfl
    (by
      intro p hp
      simp only [List.mem_cons, List.not_mem_nil, or_false] at hp
      rcases hp with rfl | rfl
      · exact ⟨_, rfl, rfl, fun _ => ⟨_, rfl⟩⟩
      · exact ⟨_, rfl, rfl, fun h => absurd h (by decide)⟩)

/-- C3: the rewrite leaves all non-function resources and all fields of
function resources other than `Properties.CodeUri` unchanged, as well as
every top-level manifest key other than `Resources` and every resource name;
it returns the mutated manifest in memory and never writes to the output
directory. -/
theorem c3_frame_in_memory (asset : Asset) (dir : SamPackageDir)
    (kvs resources : List (String × Json))
    (hzip : dir.zipPresent = true)
    (hsam : dir.samFile = some (.json (.obj kvs)))
    (hres : getKey kvs "Resources" = some (.obj resources))
    (hok : ∀ p ∈ resources, resourceOk p.2) :
    (updateSamTemplate asset dir).2.1 = dir
  ∧ ∃ kvs' resources',
      (updateSamTemplate asset dir).2.2 = .ok (.obj kvs')
      ∧ (∀ k, k ≠ "Resources" → getKey kvs' k = getKey kvs k)
      ∧ getKey kvs' "Resources" = some (.obj resources')
      ∧ List.Forall₂ (fun p q => q.1 = p.1
          ∧ (isFunctionResource p.2 = false → q.2 = p.2)
          ∧ (isFunctionResource p.2 = true →
              ∃ rkvs rkvs' props props',
                p.2 = Json.obj rkvs ∧ q.2 = Json.obj rkvs'
                ∧ (∀ f, f ≠ "Properties" → getKey rkvs' f = getKey rkvs f)
                ∧ getKey rkvs "Properties" = some (.obj props)
                ∧ getKey rkvs' "Properties" = some (.obj props')
                ∧ (∀ f, f ≠ "CodeUri" → getKey props' f = getKey props f)))
          resources resources' := by
  obtain ⟨resources', hrw, hrel⟩ := rewriteResources_ok asset resources hok
  have hall := allTypesOk_of_resourceOk resources hok
  have hupd : updateSamTemplate asset dir
      = ([.assetUpload, .manifestRead], dir,
         .ok (.obj (setKey kvs "Resources" (.obj resources')))) := by
    simp [updateSamTemplate, hzip, hsam, rewriteTemplate, hres, hall, hrw]
  refine ⟨by rw [hupd], setKey kvs "Resources" (.obj resources'), resources',
      by rw [hupd], fun k hk => getKey_setKey_ne kvs "Resources" k _ hk,
      getKey_setKey_same kvs "Resources" _, ?_⟩
  refine hrel.imp ?_
  intro p q hpq
  obtain ⟨h1, h2, h3⟩ := hpq
  refine ⟨h1, h2, fun hf => ?_⟩
  obtain ⟨rkvs, props, hveq, hp, hq⟩ := h3 hf
  exact ⟨rkvs,
      setKey rkvs "Properties" (.obj (setKey props "CodeUri" (codeUriRef asset))),
      props, setKey props "CodeUri" (codeUriRef asset), hveq, hq,
      fun f hfne => getKey_setKey_ne rkvs "Properties" f _ hfne, hp,
      getKey_setKey_same rkvs "Properties" _,
      fun f hfne => getKey_setKey_ne props "CodeUri" f _ hfne⟩

/-- Witness for C3 at the same concrete manifest as the C2 witness. -/
theorem c3_frame_in_memory_witness :
    (updateSamTemplate ⟨"cdk-bucket", "abc123.zip"⟩
      ⟨true, some (.json (.obj [("Resources", .obj
        [("APIHandler", .obj [("Type", .str "AWS::Serverless::Function"),
            ("Properties", .obj [("CodeUri", .str "./deployment.zip"),
              ("Handler", .str "app.app")])]),
         ("RestAPI", .obj [("Type", .str "AWS::Serverless::Api"),
            ("Properties", .obj [("StageName", .str "dev")])])]),
        ("Outputs", .null)]))⟩).2.1
      = ⟨true, some (.json (.obj [("Resources", .obj
        [("APIHandler", .obj [("Type", .str "AWS::Serverless::Function"),
            ("Properties", .obj [("CodeUri", .str "./deployment.zip"),
              ("Handler", .str "app.app")])]),
         ("RestAPI", .obj [("Type", .str "AWS::Serverless::Api"),
            ("Properties", .obj [("StageName", .str "dev")])])]),
        ("Outputs", .null)]))⟩
  ∧ ∃ kvs' resources',
      (updateSamTemplate ⟨"cdk-bucket", "abc123.zip"⟩
        ⟨true, some (.json (.obj [("Resources", .obj
          [("APIHandler", .obj [("Type", .str "AWS::Serverless::Function"),
              ("Properties", .obj [("CodeUri", .str "./deployment.zip"),
                ("Handler", .str "app.app")])]),
           ("RestAPI", .obj [("Type", .str "AWS::Serverless::Api"),
              ("Properties", .obj [("StageName", .str "dev")])])]),
          ("Outputs", .null)]))⟩).2.2 = .ok (.obj kvs')
      ∧ (∀ k, k ≠ "Resources" →
          getKey kvs' k = getKey [("Resources", Json.obj
            [("APIHandler", Json.obj [("Type", Json.str "AWS::Serverless::Function"),
                ("Properties", Json.obj [("CodeUri", Json.str "./deployment.zip"),
                  ("Handler", Json.str "app.app")])]),
             ("RestAPI", Json.obj [("Type", Json.str "AWS::Serverless::Api"),
                ("Properties", Json.obj [("StageName", Json.str "dev")])])]),
            ("Outputs", Json.null)] k)
      ∧ getKey kvs' "Resources" = some (.obj resources')
      ∧ List.Forall₂ (fun p q => q.1 = p.1
          ∧ (isFunctionResource p.2 = false → q.2 = p.2)
          ∧ (isFunctionResource p.2 = true →
              ∃ rkvs rkvs' props props',
                p.2 = Json.obj rkvs ∧ q.2 = Json.obj rkvs'
                ∧ (∀ f, f ≠ "Properties" → getKey rkvs' f = getKey rkvs f)
                ∧ getKey rkvs "Properties" = some (.obj props)
                ∧ getKey rkvs' "Properties" = some (.obj props')
                ∧ (∀ f, f ≠ "CodeUri" → getKey props' f = getKey props f)))
          [("APIHandler", Json.obj [("Type", Json.str "AWS::Serverless::Function"),
              ("Properties", Json.obj [("CodeUri", Json.str "./deployment.zip"),
                ("Handler", Json.str "app.app")])]),
           ("RestAPI", Json.obj [("Type", Json.str "AWS::Serverless::Api"),
              ("Properties", Json.obj [("StageName", Json.str "dev")])])]
          resources' :=
  c3_frame_in_memory ⟨"cdk-bucket", "abc123.zip"⟩
    ⟨true, some (.json (.obj [("Resources", .obj
      [("APIHandler", .obj [("Type", .str "AWS::Serverless::Function"),
          ("Properties", .obj [("CodeUri", .str "./deployment.zip"),
            ("Handler", .str "app.app")])]),
       ("RestAPI", .obj [("Type", .str "AWS::Serverless::Api"),
          ("Properties", .obj [("StageName", .str "dev")])])]),
      ("Outputs", .null)]))⟩
    [("Resources", .obj
      [("APIHandler", .obj [("Type", .str "AWS::Serverless::Function"),
          ("Properties", .obj [("CodeUri", .str "./deployment.zip"),
            ("Handler", .str "app.app")])]),
       ("RestAPI", .obj [("Type", .str "AWS::Serverless::Api"),
          ("Properties", .obj [("StageName", .str "dev")])])]),
      ("Outputs", .null)]
    [("APIHandler", .obj [("Type", .str "AWS::Serverless::Function"),
        ("Properties", .obj [("CodeUri", .str "./deployment.zip"),
          ("Handler", .str "app.app")])]),
     ("RestAPI", .obj [("Type", .str "AWS::Serverless::Api"),
        ("Properties", .obj [("StageName", .str "dev")])])]
    rfl rfl rfl
    (by
      intro p hp
      simp only [List.mem_cons, List.not_mem_nil, or_false] at hp
      rcases hp with rfl | rfl
      · exact ⟨_, rfl, rfl, fun _ => ⟨_, rfl⟩⟩
      · exact ⟨_, rfl, rfl, fun h => absurd h (by decide)⟩)

/-- C10: the archive upload happens before the manifest is opened or parsed.
When `deployment.zip` is missing, the rewrite fails with the archive lookup
error without ever reading the manifest; when the archive is present, the
asset is uploaded exactly once even when the manifest then turns out to be
missing or malformed — the error path does not undo the upload. -/
theorem c10_upload_before_manifest (asset : Asset) (dir : SamPackageDir) :
    (dir.zipPresent = false →
      (updateSamTemplate asset dir).2.2 = .error .archiveNotFound
      ∧ (updateSamTemplate asset dir).1 = [])
  ∧ (dir.zipPresent = true →
      countUploads (updateSamTemplate asset dir).1 = 1
      ∧ (updateSamTemplate asset dir).1.head? = some .assetUpload
      ∧ (dir.samFile = none →
          (updateSamTemplate asset dir).2.2 = .error .manifestNotFound)
      ∧ (dir.samFile = some .malformed →
          (updateSamTemplate asset dir).2.2 = .error .manifestMalformed)) := by
  obtain ⟨zp, sf⟩ := dir
  constructor
  · intro h
    subst h
    exact ⟨rfl, rfl⟩
  · intro h
    subst h
    cases sf with
    | none => exact ⟨rfl, rfl, fun _ => rfl, fun hh => by simp at hh⟩
    | some fc =>
      cases fc with
      | malformed => exact ⟨rfl, rfl, fun hh => by simp at hh, fun _ => rfl⟩
      | json tmpl =>
        exact ⟨rfl, rfl, fun hh => by simp at hh, fun hh => by simp at hh⟩

/-- Witness for C10: a directory without the archive (error without reading
the manifest) and one with the archive but no manifest (upload still
performed, manifest lookup error). -/
theorem c10_upload_before_manifest_witness :
    ((updateSamTemplate ⟨"b", "k"⟩ ⟨false, some (.json .null)⟩).2.2
        = .error .archiveNotFound
      ∧ (updateSamTemplate ⟨"b", "k"⟩ ⟨false, some (.json .null)⟩).1 = [])
  ∧ (countUploads (updateSamTemplate ⟨"b", "k"⟩ ⟨true, none⟩).1 = 1
      ∧ (updateSamTemplate ⟨"b", "k"⟩ ⟨true, none⟩).2.2
          = .error .manifestNotFound) :=
  ⟨(c10_upload_before_manifest ⟨"b", "k"⟩ ⟨false, some (.json .null)⟩).1 rfl,
   ((c10_upload_before_manifest ⟨"b", "k"⟩ ⟨true, none⟩).2 rfl).1,
   (((c10_upload_before_manifest ⟨"b", "k"⟩ ⟨true, none⟩).2 rfl).2.2.1 rfl)⟩
